import Mathlib

/-!
Verification of the cron scheduling core of the openclaw repository.

The service facade (start / stop / status / list / add / update / remove /
run / wakeNow, plus clearStaleRunningMarkers) is translated directly from
the TypeScript source.  Helper modules it imports (jobs.js, store.js,
timer.js) are not part of the available sources; the definitions standing
in for them are modelled from the specification and are marked as such in
their doc comments.

Modelling conventions:
- all millisecond timestamps and durations are `Int` (JS numbers used as
  integral clock readings);
- an optional / possibly non-numeric JS field is `Option Int`, with `none`
  covering both `undefined` and a non-finite number (the source treats the
  two identically at every use site);
- the injected clock is passed to each operation as an explicit argument,
  one per `nowMs()` call site;
- stateful mutation becomes explicit state passing: each operation returns
  the new store together with its result, the emitted events, and whether
  `persist` was called;
- the asynchronous `Promise.race` between the executor and its timeout is
  embedded as a pure function of an explicit executor behaviour (finishes
  after d ms / rejects after d ms / never settles).
-/

namespace Cron

/-- Execution status reported by the injected executor. -/
inductive RunStatus
  | ok
  | error
  | skipped
deriving DecidableEq

/-- Schedule variants. `every` is the fixed-interval, phase-anchored
schedule `{kind: "every", intervalMs, anchorMs}`; `oneShotAt` models the
spec's one-shot `"at"` variant (a single firing time). `anchorMs` is
`Option Int` because the source checks `typeof anchorMs !== "number" ||
!Number.isFinite(anchorMs)` before healing it. -/
inductive Schedule
  | every (intervalMs : Int) (anchorMs : Option Int)
  | oneShotAt (atMs : Int)
deriving DecidableEq

/-- Job payload. The core treats it as opaque data; the only field the
scheduler inspects is an agent-turn payload's optional numeric
`timeoutSeconds` (`none` models an absent or non-numeric field). -/
inductive Payload
  | agentTurn (timeoutSeconds : Option Int)
  | other (kind : String)
deriving DecidableEq

/-- Mutable run-state sub-record of a job. -/
structure JobState where
  nextRunAtMs : Option Int := none
  runningAtMs : Option Int := none
  lastError : Option String := none
  lastDurationMs : Option Int := none
deriving DecidableEq

/-- A persisted cron job record. `createdAtMs` is `Option Int` because
`update` defensively checks it for being a finite number. -/
structure CronJob where
  id : String
  name : String
  enabled : Bool
  createdAtMs : Option Int
  updatedAtMs : Option Int
  schedule : Schedule
  payload : Payload
  state : JobState
deriving DecidableEq

/-- A patch applied by `update`; absent fields leave the job unchanged. -/
structure CronJobPatch where
  name : Option String := none
  enabled : Option Bool := none
  schedule : Option Schedule := none
  payload : Option Payload := none
deriving DecidableEq

/-- The persisted store document `{ version, jobs }`. -/
structure Store where
  version : Nat
  jobs : List CronJob
deriving DecidableEq

/-- Result object returned by the injected executor (or synthesized from a
rejection). -/
structure CoreResult where
  status : RunStatus
  error : Option String := none
  summary : Option String := none
  sessionId : Option String := none
  sessionKey : Option String := none
deriving DecidableEq

/-- Lifecycle events delivered to the event sink. -/
inductive CronEvent
  | added (jobId : String)
  | updated (jobId : String)
  | removed (jobId : String)
  | started (jobId : String) (runAtMs : Int)
  | finished (jobId : String) (status : RunStatus) (error : Option String)
      (durationMs : Option Int) (nextRunAtMs : Option Int)
deriving DecidableEq

/-- Behaviour of one call of the injected executor on a job snapshot:
it either fulfills after `durationMs` milliseconds with a result, rejects
after `durationMs` milliseconds with an (already stringified) error, or
never settles. -/
inductive ExecBehavior
  | completes (durationMs : Int) (result : CoreResult)
  | fails (durationMs : Int) (errString : String)
  | hangs
deriving DecidableEq

/-- Modelled from the spec: `computeNextRunAtMs` of the schedule evaluator
(jobs.js, not among the available sources). For an interval schedule it
returns the smallest `anchorMs + k * intervalMs` strictly greater than
`now`; an anchor in the future is returned as-is. A missing anchor is read
as 0 and a non-positive interval degenerates to `now` (neither case is
exercised by any claim). The one-shot variant's next run is its firing
time. -/
def computeJobNextRunAtMs (job : CronJob) (now : Int) : Int :=
  match job.schedule with
  | .every intervalMs anchorMs =>
      let anchor := anchorMs.getD 0
      if intervalMs ≤ 0 then now
      else if now < anchor then anchor
      else anchor + ((now - anchor) / intervalMs + 1) * intervalMs
  | .oneShotAt atMs => atMs

/-- Modelled from the spec: `isJobDue` (jobs.js, not among the available
sources). True if forced (manual force-run ignores the schedule), else
true iff `nextRunAtMs <= now`; a job with no `nextRunAtMs` is not due. -/
def isJobDue (job : CronJob) (now : Int) (forced : Bool) : Bool :=
  forced || match job.state.nextRunAtMs with
    | some t => decide (t ≤ now)
    | none => false

/-- Recompute of one job's next run: enabled jobs get a fresh
`nextRunAtMs`, disabled jobs have it cleared. -/
def recomputeJobNext (job : CronJob) (now : Int) : CronJob :=
  if job.enabled then
    { job with state := { job.state with nextRunAtMs := some (computeJobNextRunAtMs job now) } }
  else
    { job with state := { job.state with nextRunAtMs := none } }

/-- Modelled from the spec: `recomputeNextRuns` (jobs.js, not among the
available sources). For every enabled job, recompute and overwrite
`nextRunAtMs`; for disabled jobs, clear it; return whether any value
changed so callers can skip a redundant persist. -/
def recomputeNextRuns (s : Store) (now : Int) : Store × Bool :=
  let jobs := s.jobs.map (recomputeJobNext · now)
  ({ s with jobs := jobs }, decide (jobs ≠ s.jobs))

/-- Find a job by id (JS `Array.prototype.find`). -/
def findJob (s : Store) (id : String) : Option CronJob :=
  s.jobs.find? (fun j => j.id == id)

/-- Modelled from the spec: `applyJobPatch` (jobs.js, not among the
available sources). Applies the present fields of the patch onto the job. -/
def applyJobPatch (job : CronJob) (patch : CronJobPatch) : CronJob :=
  { job with
    name := patch.name.getD job.name
    enabled := patch.enabled.getD job.enabled
    schedule := patch.schedule.getD job.schedule
    payload := patch.payload.getD job.payload }

/-- Modelled from the spec: `applyJobResult` (timer.js, not among the
available sources). Clears the in-flight marker, records
`lastDurationMs = endedAt - startedAt`, records `lastError` on failure
(clearing it otherwise), and returns whether the job should be deleted:
one-shot jobs that completed with status ok are removed, recurring jobs
are kept. `shouldDeleteAfter` is the deletion decision. -/
def shouldDeleteAfter (schedule : Schedule) (status : RunStatus) : Bool :=
  match schedule, status with
  | .oneShotAt _, .ok => true
  | _, _ => false

/-- Modelled from the spec (continued): the post-result job record. -/
def applyJobResult (job : CronJob) (status : RunStatus) (error : Option String)
    (startedAt endedAt : Int) : CronJob × Bool :=
  ({ job with
     state :=
       { job.state with
         runningAtMs := none
         lastDurationMs := some (endedAt - startedAt)
         lastError := if status = .error then error else none } },
   shouldDeleteAfter job.schedule status)

/-- Modelled from the spec: `ensureLoaded(state, {skipRecompute: true})`
(store.js, not among the available sources). Loads the store from the
persistence medium if not already in memory; a missing or unreadable
store degrades to an empty store (`"no jobs yet," not an error`). With
`skipRecompute` the persisted `nextRunAtMs` values are preserved. -/
def ensureLoadedSkip (read : Option Store) (store? : Option Store) : Store :=
  match store? with
  | some s => s
  | none => read.getD { version := 1, jobs := [] }

/-- Modelled from the spec: `ensureLoaded(state)` without `skipRecompute`
(store.js, not among the available sources). Same as `ensureLoadedSkip`,
but a freshly loaded store has its next-run times recomputed; a store
already in memory is returned unchanged. -/
def ensureLoadedR (now : Int) (read : Option Store) (store? : Option Store) : Store :=
  match store? with
  | some s => s
  | none => (recomputeNextRuns (read.getD { version := 1, jobs := [] }) now).1

/-- Replace every job carrying the given id (the source mutates the found
record in place; ids are unique in practice). -/
def replaceJob (s : Store) (id : String) (job' : CronJob) : Store :=
  { s with jobs := s.jobs.map (fun j => if j.id == id then job' else j) }

/-- Modelled from the spec: `nextWakeAtMs` (jobs.js, not among the
available sources): the minimum `nextRunAtMs` over enabled jobs, if any. -/
def nextWakeAtMs (s : Store) : Option Int :=
  (s.jobs.filterMap fun j => if j.enabled then j.state.nextRunAtMs else none).foldl
    (fun acc t => match acc with
      | none => some t
      | some a => some (min a t))
    none

/-! ## Service facade, translated from the source

The following definitions are direct translations of the TypeScript
facade (`start`, `clearStaleRunningMarkers`, `status`, `list`, `update`,
`remove`, `run`).  The `locked` wrapper serializes access and is the
identity on this single-threaded embedding; `persist` and `emit` are
reflected in each operation's output (a `persisted` flag and an event
list).  Timer arming (`armTimer`) only touches the wake handle and is
outside the scope of the claims, so it is not threaded through. -/

/-- First locked phase of `start` on an enabled service: load the store
without recomputing next runs, forcibly clear every `runningAtMs` marker
(any numeric value, regardless of age), and persist iff anything was
mutated. Returns the post-phase store and whether `persist` was called.
Translated from the first `locked` block of `start`; when the service is
disabled, `start` returns before reaching this phase. -/
def startPhase1 (read : Option Store) (store? : Option Store) : Store × Bool :=
  let s := ensureLoadedSkip read store?
  let mutated := s.jobs.any (fun j => j.state.runningAtMs.isSome)
  let jobs := s.jobs.map (fun j => { j with state := { j.state with runningAtMs := none } })
  ({ s with jobs := jobs }, mutated)

/-- Staleness threshold of `clearStaleRunningMarkers`: 30 minutes. The
source comment asserts the max job timeout is 20 minutes. -/
def STALE_THRESHOLD_MS : Int := 30 * 60000

/-- Auto-clear stale `runningAtMs` markers during list/status operations.
A marker is stale when `now - runningAtMs > STALE_THRESHOLD_MS` (strict).
Returns the updated store and whether anything was mutated. Translated
from `clearStaleRunningMarkers`. -/
def clearStaleRunningMarkers (s : Store) (now : Int) : Store × Bool :=
  let isStale := fun (j : CronJob) =>
    match j.state.runningAtMs with
    | some t => decide (now - t > STALE_THRESHOLD_MS)
    | none => false
  let jobs := s.jobs.map (fun j =>
    if isStale j then { j with state := { j.state with runningAtMs := none } } else j)
  ({ s with jobs := jobs }, s.jobs.any isStale)

/-- Result record of `status`. -/
structure StatusResult where
  enabled : Bool
  jobs : Nat
  nextWakeAtMs : Option Int
deriving DecidableEq

/-- Translated from `status`: under the lock, load without recompute,
opportunistically clear stale running markers (persisting if any were
cleared), recompute next runs (persisting if changed), and report. -/
def status (read : Option Store) (store? : Option Store) (now : Int) (cronEnabled : Bool) :
    Store × StatusResult × Bool :=
  let s := ensureLoadedSkip read store?
  let (s, cleared) := clearStaleRunningMarkers s now
  let (s, changed) := recomputeNextRuns s now
  (s,
   { enabled := cronEnabled
     jobs := s.jobs.length
     nextWakeAtMs := if cronEnabled then nextWakeAtMs s else none },
   cleared || changed)

/-- Sort key used by `list`: `a.state.nextRunAtMs ?? 0`. -/
def nextKey (j : CronJob) : Int := j.state.nextRunAtMs.getD 0

/-- Stable insertion into a list sorted by `nextKey` (ascending): an
element is placed before the first strictly greater key, keeping the
relative order of equal keys. -/
def insertByNext (x : CronJob) : List CronJob → List CronJob
  | [] => [x]
  | a :: l => if nextKey x ≤ nextKey a then x :: a :: l else a :: insertByNext x l

/-- Embedding of `Array.prototype.toSorted` with the comparator
`(a.state.nextRunAtMs ?? 0) - (b.state.nextRunAtMs ?? 0)`: a stable sort
by ascending `nextKey` that returns a new list. -/
def sortByNext : List CronJob → List CronJob
  | [] => []
  | x :: l => insertByNext x (sortByNext l)

/-- Translated from `list`: like `status`, then filter by `enabled`
unless `includeDisabled`, and return a sorted copy (the live store's
array is left in place). -/
def list (read : Option Store) (store? : Option Store) (now : Int) (includeDisabled : Bool) :
    Store × List CronJob × Bool :=
  let s := ensureLoadedSkip read store?
  let (s, cleared) := clearStaleRunningMarkers s now
  let (s, changed) := recomputeNextRuns s now
  let jobs := s.jobs.filter (fun j => includeDisabled || j.enabled)
  (s, sortByNext jobs, cleared || changed)

/-- Fallback anchor used by `update`'s self-healing of an interval
schedule with a missing or non-numeric anchor: the update time if the
patch itself carries an interval schedule, else the job's creation time
when that is a finite number, else the update time. -/
def anchorFallbackMs (job : CronJob) (patch : CronJobPatch) (now : Int) : Int :=
  match patch.schedule with
  | some (.every _ _) => now
  | _ => job.createdAtMs.getD now

/-- Schedule-level anchor healing: an interval schedule with a missing or
non-numeric anchor gets `max 0 (floor fallback)`; anything else is kept. -/
def healScheduleAnchor (sched : Schedule) (fallback : Int) : Schedule :=
  match sched with
  | .every intervalMs none => .every intervalMs (some (max 0 fallback))
  | s => s

/-- The anchor self-healing block of `update`: when the (already patched)
job has an interval schedule whose anchor is missing or non-numeric,
backfill it with `max 0 (floor fallback)`; otherwise the job is kept
unchanged. -/
def healAnchor (job : CronJob) (patch : CronJobPatch) (now : Int) : CronJob :=
  { job with schedule := healScheduleAnchor job.schedule (anchorFallbackMs job patch now) }

/-- Output of a successful `update`. -/
structure UpdateOut where
  store : Store
  job : CronJob
  events : List CronEvent
  persisted : Bool
deriving DecidableEq

/-- Translated from `update`: under the lock, load, find the job (error
`"job not found"` if absent, via the spec-modelled `findJobOrThrow`),
apply the patch, self-heal a missing interval anchor, stamp
`updatedAtMs`, and when the patch carries `schedule` or `enabled`:
recompute `nextRunAtMs` if the job ends up enabled, else clear both
`nextRunAtMs` and `runningAtMs`. Persist and emit an `updated` event. -/
def update (read : Option Store) (store? : Option Store) (id : String)
    (patch : CronJobPatch) (now : Int) : Except String UpdateOut :=
  let s := ensureLoadedR now read store?
  match findJob s id with
  | none => .error "job not found"
  | some job =>
      let job := applyJobPatch job patch
      let job := healAnchor job patch now
      let scheduleChanged := patch.schedule.isSome
      let enabledChanged := patch.enabled.isSome
      let job := { job with updatedAtMs := some now }
      let job :=
        if scheduleChanged || enabledChanged then
          if job.enabled then
            { job with state := { job.state with
                nextRunAtMs := some (computeJobNextRunAtMs job now) } }
          else
            { job with state := { job.state with
                nextRunAtMs := none, runningAtMs := none } }
        else job
      let s := replaceJob s id job
      .ok { store := s, job := job, events := [.updated id], persisted := true }

/-- Result record of `remove`. -/
structure RemoveResult where
  ok : Bool
  removed : Bool
deriving DecidableEq

/-- Body of `remove` after `ensureLoaded`, on the optional store field as
the source reads it: if no store is present, `{ok:false, removed:false}`
without persisting; else filter the job out, report whether the length
changed, persist unconditionally, and emit a `removed` event iff a job
was actually deleted. -/
def removeCore (store? : Option Store) (id : String) :
    Option Store × RemoveResult × List CronEvent × Bool :=
  match store? with
  | none => (none, { ok := false, removed := false }, [], false)
  | some s =>
      let before := s.jobs.length
      let jobs := s.jobs.filter (fun j => j.id ≠ id)
      let removed := decide (jobs.length ≠ before)
      (some { s with jobs := jobs },
       { ok := true, removed := removed },
       if removed then [.removed id] else [],
       true)

/-- Translated from `remove`: under the lock, load, then run the body. -/
def remove (read : Option Store) (store? : Option Store) (id : String) (now : Int) :
    Option Store × RemoveResult × List CronEvent × Bool :=
  removeCore (some (ensureLoadedR now read store?)) id

/-- Timeout budget of `run`'s execution phase: an agent-turn payload's
numeric `timeoutSeconds` times 1000, else a fixed default of 10 minutes.
Translated from the `jobTimeoutMs` ternary in `run`. -/
def jobTimeoutMs (payload : Payload) : Int :=
  match payload with
  | .agentTurn (some timeoutSeconds) => timeoutSeconds * 1000
  | _ => 10 * 60000

/-- The synthesized error result when the timeout wins the race: the
caught rejection `new Error("cron: job execution timed out")` stringifies
to `"Error: cron: job execution timed out"`. -/
def timedOutResult : CoreResult :=
  { status := .error, error := some "Error: cron: job execution timed out" }

/-- Whether the timeout settles before the executor under the given
behaviour and budget. -/
def timeoutWins (behavior : ExecBehavior) (timeoutMs : Int) : Bool :=
  match behavior with
  | .completes d _ => decide (timeoutMs ≤ d)
  | .fails d _ => decide (timeoutMs ≤ d)
  | .hangs => true

/-- Embedding of the `try { Promise.race([executeJobCore, timeout])
} catch { ... } finally { clearTimeout }` block: the first settled
outcome wins; a rejection (executor error or timeout) is caught and
converted into an error `CoreResult`; the scheduled timeout callback is
cleared on every exit path (the second component is the cleared flag). -/
def raceExec (behavior : ExecBehavior) (timeoutMs : Int) : CoreResult × Bool :=
  match behavior with
  | .completes d r => (if timeoutMs ≤ d then timedOutResult else r, true)
  | .fails d errString =>
      (if timeoutMs ≤ d then timedOutResult else { status := .error, error := some errString },
       true)
  | .hangs => (timedOutResult, true)

/-- Result-application phase of `run` (the final `locked` block): reload,
find the job by id (tolerating concurrent deletion as a no-op), apply the
result, emit a `finished` event, delete a successfully completed one-shot
job (emitting `removed`), recompute next runs, persist. Returns the new
store, the emitted events, and whether `persist` was called. The fresh
`nowMs()` reading used by the recompute is `endedAt`. -/
def applyResultPhase (read : Option Store) (store? : Option Store) (id : String)
    (cr : CoreResult) (startedAt endedAt : Int) : Option Store × List CronEvent × Bool :=
  let s := ensureLoadedSkip read store?
  match findJob s id with
  | none => (some s, [], false)
  | some job =>
      let (job', shouldDelete) := applyJobResult job cr.status cr.error startedAt endedAt
      let s := replaceJob s id job'
      let finishedEvt : CronEvent :=
        .finished id cr.status cr.error job'.state.lastDurationMs job'.state.nextRunAtMs
      let (s, evts) :=
        if shouldDelete then
          ({ s with jobs := s.jobs.filter (fun j => j.id ≠ job'.id) }, [finishedEvt, .removed id])
        else (s, [finishedEvt])
      let (s, _) := recomputeNextRuns s endedAt
      (some s, evts, true)

/-- Preflight outcome of `run`. -/
inductive Preflight
  | notRan (reason : String)
  | proceed (startedAt : Int) (snapshot : CronJob)
deriving DecidableEq

/-- Locked preflight step of `run`: load without recompute, find the job
by id (error `"job not found"` if absent, via the spec-modelled
`findJobOrThrow`), abort with reason `"already-running"` when
`runningAtMs` is already a number, abort with reason `"not-due"` when the
job is neither due nor forced, else mark the job running (`runningAtMs :=
now`), clear `lastError`, and take a deep independent snapshot
(`structuredClone`, a value copy in this pure embedding). -/
def runPreflight (read : Option Store) (store? : Option Store) (id : String)
    (forced : Bool) (now : Int) : Except String (Store × Preflight) :=
  let s := ensureLoadedSkip read store?
  match findJob s id with
  | none => .error "job not found"
  | some job =>
      if job.state.runningAtMs.isSome then
        .ok (s, .notRan "already-running")
      else if !isJobDue job now forced then
        .ok (s, .notRan "not-due")
      else
        let job' := { job with state := { job.state with
            runningAtMs := some now, lastError := none } }
        .ok (replaceJob s id job', .proceed now job')

/-- Tagged result of `run`: `{ok:true, ran:false, reason}` or
`{ok:true, ran:true}` (a thrown not-found error is the `Except.error`
case of `run` itself). -/
inductive RunRes
  | notRan (reason : String)
  | ran
deriving DecidableEq

/-- Full observable output of one `run` call. -/
structure RunOutput where
  res : RunRes
  store : Option Store
  events : List CronEvent
  execCalled : Bool
  timeoutMs : Option Int
  coreResult : Option CoreResult
  timerCleared : Option Bool
  persisted : Bool
deriving DecidableEq

/-- Translated from `run`: the locked preflight, then (when the job ran)
the unlocked execution phase — emit `started`, race the executor against
the timeout budget, catch any rejection — and the locked
result-application phase. The two clock readings (`startedAt`, `endedAt`)
are the explicit `now` and `endedAt` arguments. -/
def run (read : Option Store) (store? : Option Store) (id : String) (forced : Bool)
    (now endedAt : Int) (behavior : ExecBehavior) : Except String RunOutput :=
  match runPreflight read store? id forced now with
  | .error e => .error e
  | .ok (s, .notRan reason) =>
      .ok { res := .notRan reason, store := some s, events := [], execCalled := false,
            timeoutMs := none, coreResult := none, timerCleared := none, persisted := false }
  | .ok (s, .proceed startedAt snapshot) =>
      let timeoutMs := jobTimeoutMs snapshot.payload
      let (cr, cleared) := raceExec behavior timeoutMs
      let (store2, evts, persisted) := applyResultPhase read (some s) id cr startedAt endedAt
      .ok { res := .ran, store := store2, events := .started id startedAt :: evts,
            execCalled := true, timeoutMs := some timeoutMs, coreResult := some cr,
            timerCleared := some cleared, persisted := persisted }

/-! ## Theorems -/

/-- C1: for every call `run(state, id, mode)` on a loaded store, the
locked preflight step satisfies exactly this contract: if no job with the
given id exists, the error `"job not found"` is raised to the caller; if
the job's `runningAtMs` is already a number, `run` returns the tagged
result `{ran:false, reason:"already-running"}` without throwing, without
invoking the executor and without mutating the job; if the job is not due
and the mode is not force, `run` returns `{ran:false, reason:"not-due"}`,
again without throwing or mutating; otherwise the preflight sets
`runningAtMs` to the current time, clears `lastError`, and the snapshot
taken for use outside the lock is an independent copy of exactly that
updated job record. -/
theorem run_preflight_contract (read : Option Store) (s : Store) (id : String) (forced : Bool)
    (now endedAt : Int) (behavior : ExecBehavior) :
    (findJob s id = none →
        run read (some s) id forced now endedAt behavior = .error "job not found") ∧
    (∀ job, findJob s id = some job → job.state.runningAtMs.isSome = true →
        run read (some s) id forced now endedAt behavior =
          .ok { res := .notRan "already-running", store := some s, events := [],
                execCalled := false, timeoutMs := none, coreResult := none,
                timerCleared := none, persisted := false }) ∧
    (∀ job, findJob s id = some job → job.state.runningAtMs = none →
        isJobDue job now forced = false →
        run read (some s) id forced now endedAt behavior =
          .ok { res := .notRan "not-due", store := some s, events := [],
                execCalled := false, timeoutMs := none, coreResult := none,
                timerCleared := none, persisted := false }) ∧
    (∀ job, findJob s id = some job → job.state.runningAtMs = none →
        isJobDue job now forced = true →
        runPreflight read (some s) id forced now =
          .ok (replaceJob s id
                 { job with state := { job.state with
                     runningAtMs := some now, lastError := none } },
               .proceed now
                 { job with state := { job.state with
                     runningAtMs := some now, lastError := none } })) := by
  refine ⟨?_, ?_, ?_, ?_⟩
  · intro h
    simp [run, runPreflight, ensureLoadedSkip, h]
  · intro job h hrun
    simp [run, runPreflight, ensureLoadedSkip, h, hrun]
  · intro job h hrun hdue
    simp [run, runPreflight, ensureLoadedSkip, h, hrun, hdue]
  · intro job h hrun hdue
    simp [runPreflight, ensureLoadedSkip, h, hrun, hdue]

/-- Sample job with an in-flight marker (preflight must abort). -/
def c1JobRunning : CronJob where
  id := "r"
  name := "running"
  enabled := true
  createdAtMs := some 10
  updatedAtMs := some 10
  schedule := .every 60000 (some 0)
  payload := .agentTurn (some 30)
  state := { nextRunAtMs := some 50, runningAtMs := some 40 }

/-- Sample job that is not yet due at time 100. -/
def c1JobNotDue : CronJob :=
  { c1JobRunning with id := "n", state := { nextRunAtMs := some 200 } }

/-- Sample job due at time 100. -/
def c1JobDue : CronJob :=
  { c1JobRunning with id := "d", state := { nextRunAtMs := some 50 } }

/-- Sample store exercising every preflight branch. -/
def c1Store : Store := { version := 1, jobs := [c1JobRunning, c1JobNotDue, c1JobDue] }

/-- Witness for C1: the preflight contract evaluated on a concrete store
holding an absent id, an already-running job, a not-due job and a due
job. -/
theorem run_preflight_contract_witness :
    run none (some c1Store) "absent" false 100 110 .hangs = .error "job not found" ∧
    run none (some c1Store) "r" false 100 110 .hangs =
      .ok { res := .notRan "already-running", store := some c1Store, events := [],
            execCalled := false, timeoutMs := none, coreResult := none,
            timerCleared := none, persisted := false } ∧
    run none (some c1Store) "n" false 100 110 .hangs =
      .ok { res := .notRan "not-due", store := some c1Store, events := [],
            execCalled := false, timeoutMs := none, coreResult := none,
            timerCleared := none, persisted := false } ∧
    runPreflight none (some c1Store) "d" false 100 =
      .ok (replaceJob c1Store "d"
             { c1JobDue with state := { c1JobDue.state with
                 runningAtMs := some 100, lastError := none } },
           .proceed 100
             { c1JobDue with state := { c1JobDue.state with
                 runningAtMs := some 100, lastError := none } }) :=
  ⟨(run_preflight_contract none c1Store "absent" false 100 110 .hangs).1 rfl,
   (run_preflight_contract none c1Store "r" false 100 110 .hangs).2.1 c1JobRunning rfl rfl,
   (run_preflight_contract none c1Store "n" false 100 110 .hangs).2.2.1 c1JobNotDue rfl rfl rfl,
   (run_preflight_contract none c1Store "d" false 100 110 .hangs).2.2.2 c1JobDue rfl rfl rfl⟩

/-- A message contains the phrase "job execution timed out". -/
def hasTimedOutMsg (s : String) : Prop :=
  ∃ pre post, s = pre ++ "job execution timed out" ++ post

/-- The timeout race always clears its scheduled callback. -/
theorem raceExec_cleared (behavior : ExecBehavior) (timeoutMs : Int) :
    (raceExec behavior timeoutMs).2 = true := by
  cases behavior <;> rfl

/-- C2: for every `run` invocation that reaches the unlocked execution
phase, the executor is raced against a timeout whose budget is
`timeoutSeconds * 1000` for an agent-turn payload with a numeric
`timeoutSeconds` and the fixed default of 10 minutes otherwise; when the
timeout settles first the outcome is the synthesized error result whose
message contains "job execution timed out"; every rejection (executor
error or timeout) is caught and recorded as an error result instead of
propagating, so `run` still returns `{ok:true, ran:true}`; and the
scheduled timeout callback is cleared on every exit path, including
executor success. -/
theorem run_execution_timeout_contract (read : Option Store) (s : Store) (id : String)
    (forced : Bool) (now endedAt : Int) (behavior : ExecBehavior) (job : CronJob)
    (hfind : findJob s id = some job) (hrun : job.state.runningAtMs = none)
    (hdue : isJobDue job now forced = true) :
    (∀ t, jobTimeoutMs (.agentTurn (some t)) = t * 1000) ∧
    (∀ p, (∀ t, p ≠ .agentTurn (some t)) → jobTimeoutMs p = 10 * 60000) ∧
    (run read (some s) id forced now endedAt behavior).map (fun o => o.res) = .ok .ran ∧
    (run read (some s) id forced now endedAt behavior).map (fun o => o.timeoutMs) =
      .ok (some (jobTimeoutMs job.payload)) ∧
    (run read (some s) id forced now endedAt behavior).map (fun o => o.timerCleared) =
      .ok (some true) ∧
    (timeoutWins behavior (jobTimeoutMs job.payload) = true →
        (run read (some s) id forced now endedAt behavior).map (fun o => o.coreResult) =
          .ok (some timedOutResult) ∧
        timedOutResult.status = .error ∧
        hasTimedOutMsg (timedOutResult.error.getD "")) ∧
    (∀ d errString, behavior = .fails d errString →
        timeoutWins behavior (jobTimeoutMs job.payload) = false →
        (run read (some s) id forced now endedAt behavior).map (fun o => o.coreResult) =
          .ok (some { status := .error, error := some errString })) := by
  refine ⟨fun t => rfl, ?_, ?_, ?_, ?_, ?_, ?_⟩
  · intro p h
    match p with
    | .agentTurn (some t) => exact absurd rfl (h t)
    | .agentTurn none => rfl
    | .other k => rfl
  · cases behavior <;>
      simp [run, runPreflight, ensureLoadedSkip, hfind, hrun, hdue, raceExec, Except.map]
  · cases behavior <;>
      simp [run, runPreflight, ensureLoadedSkip, hfind, hrun, hdue, raceExec, Except.map]
  · cases behavior <;>
      simp [run, runPreflight, ensureLoadedSkip, hfind, hrun, hdue, raceExec, Except.map]
  · intro hwin
    refine ⟨?_, rfl, "Error: cron: ", "", by rfl⟩
    cases behavior with
    | completes d r =>
        simp only [timeoutWins, decide_eq_true_eq] at hwin
        simp [run, runPreflight, ensureLoadedSkip, hfind, hrun, hdue, raceExec, Except.map,
          if_pos hwin]
    | fails d errString =>
        simp only [timeoutWins, decide_eq_true_eq] at hwin
        simp [run, runPreflight, ensureLoadedSkip, hfind, hrun, hdue, raceExec, Except.map,
          if_pos hwin]
    | hangs =>
        simp [run, runPreflight, ensureLoadedSkip, hfind, hrun, hdue, raceExec, Except.map]
  · intro d errString hb hwin
    subst hb
    simp only [timeoutWins, decide_eq_true_eq, decide_eq_false_iff_not, not_le] at hwin
    simp [run, runPreflight, ensureLoadedSkip, hfind, hrun, hdue, raceExec, Except.map,
      if_neg (not_le.mpr hwin)]

/-- Sample due agent-turn job with a 30 second timeout budget. -/
def c2Job : CronJob where
  id := "e"
  name := "exec"
  enabled := true
  createdAtMs := some 10
  updatedAtMs := some 10
  schedule := .every 60000 (some 0)
  payload := .agentTurn (some 30)
  state := { nextRunAtMs := some 50, runningAtMs := none }

/-- Sample store for the execution-phase witness. -/
def c2Store : Store := { version := 1, jobs := [c2Job] }

/-- Witness for C2: a hanging executor on a due 30-second agent-turn job
is timed out, recorded as an error result containing "job execution timed
out", the run still reports ran, and the timeout callback is cleared. -/
theorem run_execution_timeout_contract_witness :
    (run none (some c2Store) "e" false 100 110 .hangs).map (fun o => o.res) = .ok .ran ∧
    (run none (some c2Store) "e" false 100 110 .hangs).map (fun o => o.timeoutMs) =
      .ok (some 30000) ∧
    (run none (some c2Store) "e" false 100 110 .hangs).map (fun o => o.timerCleared) =
      .ok (some true) ∧
    (run none (some c2Store) "e" false 100 110 .hangs).map (fun o => o.coreResult) =
      .ok (some timedOutResult) ∧
    hasTimedOutMsg (timedOutResult.error.getD "") := by
  have h := run_execution_timeout_contract none c2Store "e" false 100 110 .hangs c2Job
    rfl rfl rfl
  exact ⟨h.2.2.1, h.2.2.2.1.trans (by rfl), h.2.2.2.2.1, (h.2.2.2.2.2.1 rfl).1,
    (h.2.2.2.2.2.1 rfl).2.2⟩

/-- Recomputing a job's next run leaves its running marker unchanged. -/
theorem recomputeJobNext_runningAtMs (j : CronJob) (now : Int) :
    (recomputeJobNext j now).state.runningAtMs = j.state.runningAtMs := by
  unfold recomputeJobNext; split <;> rfl

/-- Recomputing a job's next run leaves its enabled flag unchanged. -/
theorem recomputeJobNext_enabled (j : CronJob) (now : Int) :
    (recomputeJobNext j now).enabled = j.enabled := by
  unfold recomputeJobNext; split <;> rfl

/-- The next-run computation only reads the schedule, so it is invariant
under changes to the run-state sub-record. -/
theorem computeJobNextRunAtMs_state (j : CronJob) (st : JobState) (now : Int) :
    computeJobNextRunAtMs { j with state := st } now = computeJobNextRunAtMs j now := rfl

/-- A recomputed job satisfies the next-run invariant: `nextRunAtMs` is
the freshly computed time when enabled, and cleared when disabled. -/
theorem recomputeJobNext_spec (j : CronJob) (now : Int) :
    (recomputeJobNext j now).state.nextRunAtMs =
      if (recomputeJobNext j now).enabled then
        some (computeJobNextRunAtMs (recomputeJobNext j now) now)
      else none := by
  by_cases h : j.enabled
  · simp only [recomputeJobNext, h, if_true]
    rfl
  · simp [recomputeJobNext, h]

/-- C3: for every store loaded by `start` on an enabled service, every
job whose `runningAtMs` is a number has the marker cleared during the
first locked phase, unconditionally and regardless of the marker's age
(the phase imposes no age condition at all), and the store is persisted
iff at least one job state was changed in the phase, i.e. iff some job
carried a marker; after the phase no job has `runningAtMs` set. -/
theorem start_clears_running_markers (read : Option Store) (s : Store) :
    (∀ j, j ∈ (startPhase1 read (some s)).1.jobs → j.state.runningAtMs = none) ∧
    ((startPhase1 read (some s)).2 = true ↔
      ∃ j ∈ s.jobs, j.state.runningAtMs.isSome = true) := by
  constructor
  · intro j hj
    simp only [startPhase1, ensureLoadedSkip, List.mem_map] at hj
    obtain ⟨x, hx, rfl⟩ := hj
    rfl
  · simp [startPhase1, ensureLoadedSkip, List.any_eq_true]

/-- Sample job whose running marker is 10 days old at time 900000000. -/
def c3JobStale : CronJob where
  id := "s"
  name := "stale"
  enabled := true
  createdAtMs := some 10
  updatedAtMs := some 10
  schedule := .every 60000 (some 0)
  payload := .agentTurn (some 30)
  state := { nextRunAtMs := some 50, runningAtMs := some 36000000 }

/-- Sample store for the startup-clearing witness. -/
def c3Store : Store :=
  { version := 1, jobs := [c3JobStale, { c3JobStale with id := "c", state := {} }] }

/-- Witness for C3: on a concrete store with a very old marker, the first
locked phase of `start` clears every marker and persists. -/
theorem start_clears_running_markers_witness :
    (startPhase1 none (some c3Store)).1.jobs.all
      (fun j => j.state.runningAtMs == none) = true ∧
    (startPhase1 none (some c3Store)).2 = true := by
  have h := start_clears_running_markers none c3Store
  constructor
  · exact List.all_eq_true.mpr (fun j hj => by rw [h.1 j hj]; rfl)
  · exact h.2.mpr ⟨c3JobStale, by simp [c3Store], rfl⟩

/-- No job coming out of the clear-stale-then-recompute pipeline carries
a marker older than the staleness threshold. -/
theorem pipeline_no_stale (s : Store) (now : Int) (j : CronJob)
    (hj : j ∈ ((recomputeNextRuns (clearStaleRunningMarkers s now).1 now).1).jobs)
    (t : Int) (ht : j.state.runningAtMs = some t) : now - t ≤ STALE_THRESHOLD_MS := by
  simp only [recomputeNextRuns, clearStaleRunningMarkers, List.mem_map] at hj
  obtain ⟨y, ⟨x, hx, rfl⟩, rfl⟩ := hj
  rw [recomputeJobNext_runningAtMs] at ht
  by_cases hs : (match x.state.runningAtMs with
      | some u => decide (now - u > STALE_THRESHOLD_MS)
      | none => false) = true
  · rw [if_pos hs] at ht
    simp at ht
  · rw [if_neg hs] at ht
    rw [ht] at hs
    simp only [decide_eq_true_eq] at hs
    exact le_of_not_lt hs

/-- Every job coming out of the pipeline has its next-run time freshly
recomputed: set from the schedule when enabled, cleared when disabled. -/
theorem pipeline_recomputed (s : Store) (now : Int) (j : CronJob)
    (hj : j ∈ ((recomputeNextRuns (clearStaleRunningMarkers s now).1 now).1).jobs) :
    j.state.nextRunAtMs =
      if j.enabled then some (computeJobNextRunAtMs j now) else none := by
  simp only [recomputeNextRuns, List.mem_map] at hj
  obtain ⟨y, hy, rfl⟩ := hj
  exact recomputeJobNext_spec y now

/-- A store holding a stale marker makes `clearStaleRunningMarkers`
report a mutation. -/
theorem clearStale_mutated (s : Store) (now : Int)
    (h : ∃ j ∈ s.jobs, ∃ t, j.state.runningAtMs = some t ∧ now - t > STALE_THRESHOLD_MS) :
    (clearStaleRunningMarkers s now).2 = true := by
  obtain ⟨j, hj, t, ht, hstale⟩ := h
  simp only [clearStaleRunningMarkers, List.any_eq_true]
  exact ⟨j, hj, by rw [ht]; simpa using hstale⟩

/-- C4: for every `status` or `list` call on a loaded store, every job
whose `runningAtMs` marker is older than the staleness threshold at the
current clock time has the marker cleared before the result is returned,
the store is persisted when any marker was cleared, and next-run times
are recomputed before returning, so an observer never sees a permanently
stuck running marker. -/
theorem read_ops_clear_stale_markers (read : Option Store) (s : Store) (now : Int)
    (cronEnabled includeDisabled : Bool) :
    (∀ j, j ∈ (status read (some s) now cronEnabled).1.jobs →
        ∀ t, j.state.runningAtMs = some t → now - t ≤ STALE_THRESHOLD_MS) ∧
    ((∃ j ∈ s.jobs, ∃ t, j.state.runningAtMs = some t ∧ now - t > STALE_THRESHOLD_MS) →
        (status read (some s) now cronEnabled).2.2 = true) ∧
    (∀ j, j ∈ (status read (some s) now cronEnabled).1.jobs →
        j.state.nextRunAtMs =
          if j.enabled then some (computeJobNextRunAtMs j now) else none) ∧
    (∀ j, j ∈ (list read (some s) now includeDisabled).1.jobs →
        ∀ t, j.state.runningAtMs = some t → now - t ≤ STALE_THRESHOLD_MS) ∧
    ((∃ j ∈ s.jobs, ∃ t, j.state.runningAtMs = some t ∧ now - t > STALE_THRESHOLD_MS) →
        (list read (some s) now includeDisabled).2.2 = true) ∧
    (∀ j, j ∈ (list read (some s) now includeDisabled).1.jobs →
        j.state.nextRunAtMs =
          if j.enabled then some (computeJobNextRunAtMs j now) else none) := by
  refine ⟨?_, ?_, ?_, ?_, ?_, ?_⟩
  · exact fun j hj t ht => pipeline_no_stale s now j hj t ht
  · intro h
    have := clearStale_mutated s now h
    simp [status, ensureLoadedSkip, this]
  · exact fun j hj => pipeline_recomputed s now j hj
  · exact fun j hj t ht => pipeline_no_stale s now j hj t ht
  · intro h
    have := clearStale_mutated s now h
    simp [list, ensureLoadedSkip, this]
  · exact fun j hj => pipeline_recomputed s now j hj

/-- Sample store with one stale marker (age 31 minutes at time 1900000)
and one fresh marker (age 10 ms). -/
def c4Store : Store :=
  { version := 1
    jobs :=
      [{ id := "stale", name := "a", enabled := true, createdAtMs := some 0,
         updatedAtMs := some 0, schedule := .every 60000 (some 0),
         payload := .agentTurn (some 30),
         state := { nextRunAtMs := some 50, runningAtMs := some 40000 } },
       { id := "fresh", name := "b", enabled := false, createdAtMs := some 0,
         updatedAtMs := some 0, schedule := .every 60000 (some 0),
         payload := .agentTurn (some 30),
         state := { nextRunAtMs := some 50, runningAtMs := some 1899990 } }] }

/-- Witness for C4: at time 1900000 the 31-minute-old marker forces a
persist on both `status` and `list`, no surviving marker is stale, and
next-run times are recomputed. -/
theorem read_ops_clear_stale_markers_witness :
    (status none (some c4Store) 1900000 true).2.2 = true ∧
    (list none (some c4Store) 1900000 false).2.2 = true ∧
    (status none (some c4Store) 1900000 true).1.jobs.all
      (fun j => decide (∀ t, j.state.runningAtMs = some t →
        1900000 - t ≤ STALE_THRESHOLD_MS)) = true ∧
    (status none (some c4Store) 1900000 true).1.jobs.all
      (fun j => j.state.nextRunAtMs ==
        if j.enabled then some (computeJobNextRunAtMs j 1900000) else none) = true := by
  have h := read_ops_clear_stale_markers none c4Store 1900000 true false
  have hstale : ∃ j ∈ c4Store.jobs, ∃ t,
      j.state.runningAtMs = some t ∧ 1900000 - t > STALE_THRESHOLD_MS := by
    refine ⟨c4Store.jobs.head (by simp [c4Store]), by simp [c4Store], 40000, ?_, ?_⟩ <;>
      simp [c4Store, STALE_THRESHOLD_MS]
  refine ⟨h.2.1 hstale, h.2.2.2.2.1 hstale, ?_, ?_⟩
  · exact List.all_eq_true.mpr (fun j hj => by
      exact decide_eq_true_eq.mpr (fun t ht => h.1 j hj t ht))
  · exact List.all_eq_true.mpr (fun j hj => by
      rw [h.2.2.1 j hj]
      exact beq_self_eq_true _)

/-- C5: the claim asserts that for every possible job payload the timeout
budget granted by `run` is strictly less than the staleness threshold
used by `clearStaleRunningMarkers`, and the source's own comment agrees
("Threshold: 30 minutes (max job timeout is 20 minutes)"); but `run`
grants an agent-turn payload `timeoutSeconds * 1000` with no cap, so a
payload with `timeoutSeconds = 3600` receives a 3,600,000 ms budget,
which is not below the 1,800,000 ms threshold — the code contradicts its
own documentation. The default budget (10 minutes) does stay below the
threshold. -/
theorem timeout_budget_not_below_stale_threshold :
    jobTimeoutMs (.agentTurn (some 3600)) = 3600000 ∧
    STALE_THRESHOLD_MS = 1800000 ∧
    ¬ jobTimeoutMs (.agentTurn (some 3600)) < STALE_THRESHOLD_MS ∧
    jobTimeoutMs (.agentTurn none) = 600000 ∧
    jobTimeoutMs (.other "block") = 600000 ∧
    jobTimeoutMs (.agentTurn none) < STALE_THRESHOLD_MS := by
  refine ⟨rfl, rfl, ?_, rfl, rfl, ?_⟩ <;> decide

/-- Jobs keep their id under a next-run recompute. -/
theorem recomputeJobNext_id (j : CronJob) (now : Int) :
    (recomputeJobNext j now).id = j.id := by
  unfold recomputeJobNext; split <;> rfl

/-- Finding by id commutes with mapping an id-preserving function over
the store's jobs. -/
theorem findJob_map_preserve (s : Store) (id : String) (f : CronJob → CronJob)
    (hf : ∀ j, (f j).id = j.id) :
    findJob { s with jobs := s.jobs.map f } id = (findJob s id).map f := by
  simp only [findJob]
  rw [List.find?_map]
  have hcomp : ((fun j : CronJob => j.id == id) ∘ f) = (fun j : CronJob => j.id == id) := by
    funext j
    simp [Function.comp, hf]
  rw [hcomp]

/-- Recomputing next runs leaves `lastDurationMs` unchanged. -/
theorem recomputeJobNext_lastDurationMs (j : CronJob) (now : Int) :
    (recomputeJobNext j now).state.lastDurationMs = j.state.lastDurationMs := by
  unfold recomputeJobNext; split <;> rfl

/-- Recomputing next runs leaves `lastError` unchanged. -/
theorem recomputeJobNext_lastError (j : CronJob) (now : Int) :
    (recomputeJobNext j now).state.lastError = j.state.lastError := by
  unfold recomputeJobNext; split <;> rfl

/-- C6: for every `run` that reaches the result-application phase: if the
job was deleted from the store during the unlocked execution, result
application is a no-op (no error, no events, nothing persisted); a
one-shot job that completed with status ok is removed from the store
with a `removed` event emitted; every other job — a recurring (interval)
job under any status, and a one-shot job that errored or was skipped —
is kept, with `lastDurationMs` recorded as `endedAt - startedAt`,
`lastError` recorded on failure, and a freshly recomputed
`nextRunAtMs`. -/
theorem apply_result_contract (read : Option Store) (s : Store) (id : String)
    (cr : CoreResult) (startedAt endedAt : Int) :
    (findJob s id = none →
        applyResultPhase read (some s) id cr startedAt endedAt = (some s, [], false)) ∧
    (∀ job, findJob s id = some job →
      (∀ atMs, job.schedule = .oneShotAt atMs → cr.status = .ok →
          (∀ j, j ∈ ((applyResultPhase read (some s) id cr startedAt endedAt).1.getD s).jobs →
              j.id ≠ id) ∧
          CronEvent.removed id ∈
            (applyResultPhase read (some s) id cr startedAt endedAt).2.1) ∧
      (∀ i a, job.schedule = .every i a →
          shouldDeleteAfter job.schedule cr.status = false) ∧
      (shouldDeleteAfter job.schedule cr.status = false →
          findJob ((applyResultPhase read (some s) id cr startedAt endedAt).1.getD s) id =
            some (recomputeJobNext
              (applyJobResult job cr.status cr.error startedAt endedAt).1 endedAt)) ∧
      (shouldDeleteAfter job.schedule cr.status = false →
          ∀ j', findJob ((applyResultPhase read (some s) id cr startedAt endedAt).1.getD s) id =
              some j' →
            j'.state.lastDurationMs = some (endedAt - startedAt) ∧
            (cr.status = .error → j'.state.lastError = cr.error) ∧
            j'.state.nextRunAtMs =
              if j'.enabled then some (computeJobNextRunAtMs j' endedAt) else none)) := by
  constructor
  · intro h
    simp [applyResultPhase, ensureLoadedSkip, h]
  · intro job hfind
    have hid : job.id = id := by
      have := List.find?_some hfind
      simpa using this
    have hid' : (applyJobResult job cr.status cr.error startedAt endedAt).1.id = id := hid
    have hf : ∀ j : CronJob,
        ((fun j => if j.id == id
            then (applyJobResult job cr.status cr.error startedAt endedAt).1 else j) j).id =
          j.id := by
      intro j
      dsimp only
      by_cases hj : (j.id == id) = true
      · rw [if_pos hj, hid', eq_of_beq hj]
      · rw [if_neg hj]
    have hkept : shouldDeleteAfter job.schedule cr.status = false →
        findJob ((applyResultPhase read (some s) id cr startedAt endedAt).1.getD s) id =
          some (recomputeJobNext
            (applyJobResult job cr.status cr.error startedAt endedAt).1 endedAt) := by
      intro hdelS
      have hdel : (applyJobResult job cr.status cr.error startedAt endedAt).2 = false := hdelS
      have hrepl : findJob (replaceJob s id
            (applyJobResult job cr.status cr.error startedAt endedAt).1) id =
          some (applyJobResult job cr.status cr.error startedAt endedAt).1 := by
        unfold replaceJob
        rw [findJob_map_preserve s id _ hf, hfind]
        simp [hid]
      simp only [applyResultPhase, ensureLoadedSkip, hfind, hdel, Bool.false_eq_true,
        if_false, recomputeNextRuns, Option.getD_some]
      rw [findJob_map_preserve _ id _ (fun j => recomputeJobNext_id j endedAt), hrepl]
      rfl
    refine ⟨?_, ?_, hkept, ?_⟩
    case refine_2 =>
      intro i a hsch
      show shouldDeleteAfter job.schedule cr.status = false
      rw [hsch]
      cases cr.status <;> rfl
    · intro atMs hsch hok
      have hdel : (applyJobResult job cr.status cr.error startedAt endedAt).2 = true := by
        show shouldDeleteAfter job.schedule cr.status = true
        rw [hsch, hok]
        rfl
      constructor
      · intro j hj
        simp only [applyResultPhase, ensureLoadedSkip, hfind, hdel, if_true,
          recomputeNextRuns, Option.getD_some, List.mem_map, List.mem_filter] at hj
        obtain ⟨y, ⟨hy, hyne⟩, rfl⟩ := hj
        rw [recomputeJobNext_id]
        intro hcontra
        rw [hcontra] at hyne
        simp [hid'] at hyne
      · simp [applyResultPhase, ensureLoadedSkip, hfind, hdel]
    · intro hdelS j' hj'
      rw [hkept hdelS] at hj'
      obtain rfl : j' = recomputeJobNext
          (applyJobResult job cr.status cr.error startedAt endedAt).1 endedAt :=
        (Option.some_inj.mp hj').symm
      refine ⟨?_, ?_, recomputeJobNext_spec _ endedAt⟩
      · rw [recomputeJobNext_lastDurationMs]
        rfl
      · intro herr
        rw [recomputeJobNext_lastError]
        simp [applyJobResult, herr]

/-- Sample one-shot job (fires once at t=90). -/
def c6OneShot : CronJob where
  id := "os"
  name := "once"
  enabled := true
  createdAtMs := some 0
  updatedAtMs := some 0
  schedule := .oneShotAt 90
  payload := .agentTurn (some 30)
  state := { nextRunAtMs := some 90, runningAtMs := some 100 }

/-- Sample recurring job. -/
def c6Every : CronJob where
  id := "ev"
  name := "recurring"
  enabled := true
  createdAtMs := some 0
  updatedAtMs := some 0
  schedule := .every 60000 (some 0)
  payload := .agentTurn (some 30)
  state := { nextRunAtMs := some 50, runningAtMs := some 100 }

/-- Sample store for the result-application witness. -/
def c6Store : Store := { version := 1, jobs := [c6OneShot, c6Every] }

/-- The failing executor outcome used in the witness. -/
def c6Err : CoreResult := { status := .error, error := some "boom" }

/-- Witness for C6: on a concrete store, applying a result for a deleted
id is a no-op; an ok result removes the one-shot job and emits `removed`;
an error result keeps the recurring job with `lastError` recorded and a
recomputed next run; and an error result also keeps the one-shot job,
with its duration and `lastError` recorded. -/
theorem apply_result_contract_witness :
    applyResultPhase none (some c6Store) "gone" { status := RunStatus.ok } 100 110 =
      (some c6Store, [], false) ∧
    CronEvent.removed "os" ∈
      (applyResultPhase none (some c6Store) "os" { status := RunStatus.ok } 100 110).2.1 ∧
    ((applyResultPhase none (some c6Store) "os" { status := RunStatus.ok } 100 110).1.getD
        c6Store).jobs.all (fun j => j.id != "os") = true ∧
    findJob ((applyResultPhase none (some c6Store) "ev" c6Err 100 110).1.getD c6Store) "ev" =
      some (recomputeJobNext (applyJobResult c6Every c6Err.status c6Err.error 100 110).1 110) ∧
    (recomputeJobNext (applyJobResult c6Every c6Err.status c6Err.error 100 110).1 110).state.lastError =
      some "boom" ∧
    findJob ((applyResultPhase none (some c6Store) "os" c6Err 100 110).1.getD c6Store) "os" =
      some (recomputeJobNext (applyJobResult c6OneShot c6Err.status c6Err.error 100 110).1 110) ∧
    (recomputeJobNext (applyJobResult c6OneShot c6Err.status c6Err.error 100 110).1
        110).state.lastDurationMs = some 10 ∧
    (recomputeJobNext (applyJobResult c6OneShot c6Err.status c6Err.error 100 110).1
        110).state.lastError = some "boom" := by
  have h1 := apply_result_contract none c6Store "gone"
    { status := RunStatus.ok } 100 110
  have h2 := apply_result_contract none c6Store "os"
    { status := RunStatus.ok } 100 110
  have h3 := apply_result_contract none c6Store "ev" c6Err 100 110
  have h4 := apply_result_contract none c6Store "os" c6Err 100 110
  have hk := (h3.2 c6Every rfl).2.2.1 rfl
  have hko := (h4.2 c6OneShot rfl).2.2.1 rfl
  have hfo := (h4.2 c6OneShot rfl).2.2.2 rfl _ hko
  refine ⟨h1.1 rfl, ((h2.2 c6OneShot rfl).1 90 rfl rfl).2, ?_,
    hk, ?_, hko, hfo.1.trans (by decide), hfo.2.1 rfl⟩
  · exact List.all_eq_true.mpr (fun j hj => by
      simpa using ((h2.2 c6OneShot rfl).1 90 rfl rfl).1 j hj)
  · exact (((h3.2 c6Every rfl).2.2.2 rfl) _ hk).2.1 rfl

/-- Inserting into the sort keeps the elements (as a permutation of
consing). -/
theorem insertByNext_perm (x : CronJob) (l : List CronJob) :
    (insertByNext x l).Perm (x :: l) := by
  induction l with
  | nil => simp [insertByNext]
  | cons a l ih =>
      unfold insertByNext
      split
      · exact List.Perm.refl _
      · exact (ih.cons a).trans (List.Perm.swap x a l)

/-- The sort permutes its input. -/
theorem sortByNext_perm (l : List CronJob) : (sortByNext l).Perm l := by
  induction l with
  | nil => simp [sortByNext]
  | cons x l ih => exact (insertByNext_perm x (sortByNext l)).trans (ih.cons x)

/-- Inserting into a sorted list keeps it sorted by `nextKey`. -/
theorem insertByNext_sorted (x : CronJob) (l : List CronJob)
    (h : l.Pairwise (fun a b => nextKey a ≤ nextKey b)) :
    (insertByNext x l).Pairwise (fun a b => nextKey a ≤ nextKey b) := by
  induction l with
  | nil => simp [insertByNext]
  | cons a l ih =>
      rw [List.pairwise_cons] at h
      obtain ⟨ha, hl⟩ := h
      unfold insertByNext
      split
      case isTrue hcmp =>
        refine List.Pairwise.cons ?_ (List.Pairwise.cons ha hl)
        intro b hb
        rcases List.mem_cons.mp hb with rfl | hb
        · exact hcmp
        · exact le_trans hcmp (ha b hb)
      case isFalse hcmp =>
        refine List.Pairwise.cons ?_ (ih hl)
        intro b hb
        have hb' := (insertByNext_perm x l).mem_iff.mp hb
        rcases List.mem_cons.mp hb' with rfl | hb'
        · exact le_of_not_le hcmp
        · exact ha b hb'

/-- The sort output is sorted by ascending `nextKey`. -/
theorem sortByNext_sorted (l : List CronJob) :
    (sortByNext l).Pairwise (fun a b => nextKey a ≤ nextKey b) := by
  induction l with
  | nil => simp [sortByNext]
  | cons x l ih => exact insertByNext_sorted x _ ih

/-- C7: for every store and `includeDisabled` option, `list` returns
exactly the jobs that are enabled (all jobs when `includeDisabled`),
sorted ascending by `nextRunAtMs` with an undefined value treated as 0
(and therefore sorting first), and the live store's job array keeps its
order. -/
theorem list_filter_sort_contract (read : Option Store) (s : Store) (now : Int)
    (includeDisabled : Bool) :
    ((list read (some s) now includeDisabled).2.1).Pairwise
      (fun a b => nextKey a ≤ nextKey b) ∧
    ((list read (some s) now includeDisabled).2.1).Perm
      (((list read (some s) now includeDisabled).1).jobs.filter
        (fun j => includeDisabled || j.enabled)) ∧
    (∀ j, j ∈ (list read (some s) now includeDisabled).2.1 ↔
        (j ∈ ((list read (some s) now includeDisabled).1).jobs ∧
         (includeDisabled = true ∨ j.enabled = true))) ∧
    ((list read (some s) now includeDisabled).1).jobs.map (fun j => j.id) =
      s.jobs.map (fun j => j.id) := by
  refine ⟨sortByNext_sorted _, sortByNext_perm _, ?_, ?_⟩
  · intro j
    have hmem : (list read (some s) now includeDisabled).2.1 =
        sortByNext (((list read (some s) now includeDisabled).1).jobs.filter
          (fun j => includeDisabled || j.enabled)) := rfl
    rw [hmem, (sortByNext_perm _).mem_iff, List.mem_filter]
    simp
  · show (((recomputeNextRuns (clearStaleRunningMarkers s now).1 now).1).jobs.map
        (fun j => j.id)) = s.jobs.map (fun j => j.id)
    simp only [recomputeNextRuns, clearStaleRunningMarkers, List.map_map]
    refine List.map_congr_left ?_
    intro j hj
    simp only [Function.comp]
    rw [recomputeJobNext_id]
    split <;> rfl

/-- Sample enabled job with a near anchor. -/
def c7A : CronJob where
  id := "a"
  name := "near"
  enabled := true
  createdAtMs := some 0
  updatedAtMs := some 0
  schedule := .every 1000 (some 0)
  payload := .other "beat"
  state := { nextRunAtMs := some 700 }

/-- Sample enabled job with a far anchor. -/
def c7B : CronJob where
  id := "b"
  name := "far"
  enabled := true
  createdAtMs := some 0
  updatedAtMs := some 0
  schedule := .every 60000 (some 0)
  payload := .other "beat"
  state := { nextRunAtMs := some 60000 }

/-- Sample disabled job. -/
def c7Dis : CronJob where
  id := "dis"
  name := "off"
  enabled := false
  createdAtMs := some 0
  updatedAtMs := some 0
  schedule := .every 60000 (some 0)
  payload := .other "beat"
  state := { nextRunAtMs := some 5 }

/-- Sample store for the list witness (deliberately unsorted). -/
def c7Store : Store := { version := 1, jobs := [c7B, c7A, c7Dis] }

/-- Witness for C7: `list` on a concrete out-of-order store yields a
sorted permutation of the enabled jobs, the disabled job is excluded (it
would be included only with `includeDisabled`), and the live job array
keeps its order. -/
theorem list_filter_sort_contract_witness :
    ((list none (some c7Store) 100 false).2.1).Pairwise
      (fun a b => nextKey a ≤ nextKey b) ∧
    ((list none (some c7Store) 100 false).2.1).Perm
      (((list none (some c7Store) 100 false).1).jobs.filter
        (fun j => false || j.enabled)) ∧
    (c7Dis ∈ (list none (some c7Store) 100 false).2.1 ↔
      (c7Dis ∈ ((list none (some c7Store) 100 false).1).jobs ∧
       (false = true ∨ c7Dis.enabled = true))) ∧
    ((list none (some c7Store) 100 false).1).jobs.map (fun j => j.id) =
      c7Store.jobs.map (fun j => j.id) :=
  have h := list_filter_sort_contract none c7Store 100 false
  ⟨h.1, h.2.1, h.2.2.1 c7Dis, h.2.2.2⟩

/-- The schedule of the job returned by `update` is exactly the healed
patched schedule: the later steps of `update` only touch `updatedAtMs`
and the run-state. -/
theorem update_job_schedule (read : Option Store) (s : Store) (id : String)
    (patch : CronJobPatch) (now : Int) (job : CronJob) (out : UpdateOut)
    (hfind : findJob s id = some job)
    (hout : update read (some s) id patch now = .ok out) :
    out.job.schedule =
      healScheduleAnchor (applyJobPatch job patch).schedule
        (anchorFallbackMs (applyJobPatch job patch) patch now) := by
  simp only [update, ensureLoadedR, hfind] at hout
  injection hout with h
  subst h
  dsimp only
  split
  · split <;> rfl
  · rfl

/-- Sample job with a valid positive anchor. -/
def c8Job : CronJob where
  id := "j"
  name := "interval"
  enabled := true
  createdAtMs := some 10
  updatedAtMs := some 10
  schedule := .every 1000 (some 5)
  payload := .other "beat"
  state := { nextRunAtMs := some 50 }

/-- Sample store for the anchor counterexample. -/
def c8Store : Store := { version := 1, jobs := [c8Job] }

/-- A patch that explicitly supplies a negative (finite) anchor. -/
def c8Patch : CronJobPatch := { schedule := some (.every 1000 (some (-5))) }

/-- C8 counterexample: the claim states that after every `update` an
interval-schedule job's `anchorMs` is a finite non-negative number, but a
patch that explicitly carries a negative numeric anchor is applied as-is:
the healing block only fires when the anchor is missing or non-numeric,
so this update leaves `anchorMs = -5 < 0`. -/
theorem update_anchor_negative_counterexample :
    (update none (some c8Store) "j" c8Patch 100).map (fun out => out.job.schedule) =
      .ok (.every 1000 (some (-5))) ∧
    ((-5 : Int) < 0) :=
  ⟨rfl, by decide⟩

/-- C8 (amended): after every `update` on an existing job whose resulting
schedule has kind `every`, `anchorMs` is a numeric value; when the anchor
was missing or non-numeric after applying the patch, it is backfilled —
clamped to be non-negative — with the update time if the patch itself
introduced an interval schedule, and otherwise with the job's creation
time (falling back to the update time when the creation time is not a
finite number). A patch that explicitly supplies a numeric anchor is
kept as-is, even when negative. -/
theorem update_anchor_backfill (read : Option Store) (s : Store) (id : String)
    (patch : CronJobPatch) (now : Int) (job : CronJob) (out : UpdateOut)
    (hfind : findJob s id = some job)
    (hout : update read (some s) id patch now = .ok out) :
    (∀ i a, out.job.schedule = .every i a → a.isSome = true) ∧
    (∀ i, (applyJobPatch job patch).schedule = .every i none →
        out.job.schedule =
          .every i (some (max 0 (anchorFallbackMs (applyJobPatch job patch) patch now)))) ∧
    (0 ≤ max 0 (anchorFallbackMs (applyJobPatch job patch) patch now)) := by
  have hsch := update_job_schedule read s id patch now job out hfind hout
  refine ⟨?_, ?_, le_max_left 0 _⟩
  · intro i a ha
    rw [hsch] at ha
    rcases hps : (applyJobPatch job patch).schedule with ⟨i', a'⟩ | t
    · rcases a' with _ | x
      · rw [hps] at ha
        simp only [healScheduleAnchor] at ha
        rw [Schedule.every.injEq] at ha
        rw [← ha.2]
        rfl
      · rw [hps] at ha
        simp only [healScheduleAnchor] at ha
        rw [Schedule.every.injEq] at ha
        rw [← ha.2]
        rfl
    · rw [hps] at ha
      simp only [healScheduleAnchor] at ha
      exact absurd ha (by simp)
  · intro i hps
    rw [hsch, hps]
    rfl

/-- Sample one-shot job about to be patched into an interval job. -/
def c8wJob : CronJob where
  id := "j"
  name := "patched"
  enabled := true
  createdAtMs := some 10
  updatedAtMs := some 10
  schedule := .oneShotAt 50
  payload := .other "beat"
  state := {}

/-- Sample store for the backfill witness. -/
def c8wStore : Store := { version := 1, jobs := [c8wJob] }

/-- A patch introducing an interval schedule with no anchor. -/
def c8wPatch : CronJobPatch := { schedule := some (.every 1000 none) }

/-- The job record produced by the witness update. -/
def c8wJobHealed : CronJob :=
  { c8wJob with
    updatedAtMs := some 100
    schedule := .every 1000 (some 100)
    state := { c8wJob.state with nextRunAtMs := some 1100 } }

/-- The full output of the witness update. -/
def c8wOut : UpdateOut where
  store := { version := 1, jobs := [c8wJobHealed] }
  job := c8wJobHealed
  events := [.updated "j"]
  persisted := true

/-- Witness for C8 (amended): a patch introducing an anchorless interval
schedule at time 100 gets the anchor backfilled with the update time,
clamped non-negative. -/
theorem update_anchor_backfill_witness :
    update none (some c8wStore) "j" c8wPatch 100 = .ok c8wOut ∧
    c8wOut.job.schedule =
      .every 1000 (some (max 0 (anchorFallbackMs (applyJobPatch c8wJob c8wPatch) c8wPatch 100))) ∧
    c8wOut.job.schedule = .every 1000 (some 100) := by
  have h := update_anchor_backfill none c8wStore "j" c8wPatch 100 c8wJob c8wOut rfl rfl
  exact ⟨rfl, h.2.1 1000 rfl, rfl⟩

/-- A patch without a schedule leaves the job's schedule unchanged. -/
theorem applyJobPatch_schedule_none (job : CronJob) (patch : CronJobPatch)
    (h : patch.schedule = none) : (applyJobPatch job patch).schedule = job.schedule := by
  simp [applyJobPatch, h]

/-- C9: for every `update` whose patch carries the enabled flag or the
schedule (in particular whenever it changes them): if the job ends up
disabled, both `nextRunAtMs` and `runningAtMs` are cleared; if it ends up
enabled, `nextRunAtMs` is recomputed from the (unchanged) schedule and
the current time; and a patch without a schedule — such as a re-enable —
never changes the anchor. -/
theorem update_enable_disable_contract (read : Option Store) (s : Store) (id : String)
    (patch : CronJobPatch) (now : Int) (job : CronJob) (out : UpdateOut)
    (hfind : findJob s id = some job)
    (hch : patch.enabled.isSome = true ∨ patch.schedule.isSome = true)
    (hout : update read (some s) id patch now = .ok out) :
    (out.job.enabled = false →
        out.job.state.nextRunAtMs = none ∧ out.job.state.runningAtMs = none) ∧
    (out.job.enabled = true →
        out.job.state.nextRunAtMs = some (computeJobNextRunAtMs out.job now)) ∧
    (∀ i a, patch.schedule = none → job.schedule = .every i (some a) →
        out.job.schedule = .every i (some a)) := by
  have hcond : (patch.schedule.isSome || patch.enabled.isSome) = true := by
    rcases hch with h | h <;> simp [h]
  have hanchor : ∀ i a, patch.schedule = none → job.schedule = .every i (some a) →
      out.job.schedule = .every i (some a) := by
    intro i a hnone hjob
    rw [update_job_schedule read s id patch now job out hfind hout,
      applyJobPatch_schedule_none job patch hnone, hjob]
    rfl
  simp only [update, ensureLoadedR, hfind] at hout
  injection hout with h
  subst h
  refine ⟨?_, ?_, hanchor⟩
  · intro hdis
    by_cases h2 : (healAnchor (applyJobPatch job patch) patch now).enabled = true
    · dsimp only at hdis
      simp [hcond, h2] at hdis
    · dsimp only
      simp [hcond, h2]
  · intro hen
    by_cases h2 : (healAnchor (applyJobPatch job patch) patch now).enabled = true
    · dsimp only
      simp only [hcond, h2, if_true]
      rfl
    · dsimp only at hen
      simp [hcond, h2] at hen

/-- Sample enabled interval job about to be disabled. -/
def c9Job : CronJob where
  id := "k"
  name := "toggle"
  enabled := true
  createdAtMs := some 10
  updatedAtMs := some 10
  schedule := .every 1000 (some 5)
  payload := .other "beat"
  state := { nextRunAtMs := some 50, runningAtMs := some 40 }

/-- Store for the disable half of the witness. -/
def c9Store : Store := { version := 1, jobs := [c9Job] }

/-- Sample disabled interval job about to be re-enabled. -/
def c9JobOff : CronJob := { c9Job with enabled := false, state := {} }

/-- Store for the enable half of the witness. -/
def c9StoreOff : Store := { version := 1, jobs := [c9JobOff] }

/-- The job record produced by disabling `c9Job` at time 100. -/
def c9JobDisabled : CronJob :=
  { c9Job with enabled := false, updatedAtMs := some 100, state := {} }

/-- Output of disabling `c9Job` at time 100. -/
def c9OutD : UpdateOut where
  store := { version := 1, jobs := [c9JobDisabled] }
  job := c9JobDisabled
  events := [.updated "k"]
  persisted := true

/-- The job record produced by re-enabling `c9JobOff` at time 100. -/
def c9JobEnabled : CronJob :=
  { c9JobOff with enabled := true, updatedAtMs := some 100, state := { nextRunAtMs := some 1005 } }

/-- Output of re-enabling `c9JobOff` at time 100. -/
def c9OutE : UpdateOut where
  store := { version := 1, jobs := [c9JobEnabled] }
  job := c9JobEnabled
  events := [.updated "k"]
  persisted := true

/-- Witness for C9: disabling clears `nextRunAtMs` and `runningAtMs`;
re-enabling recomputes `nextRunAtMs` from the unchanged schedule (anchor
5 is kept and the next run lands on 1005). -/
theorem update_enable_disable_contract_witness :
    update none (some c9Store) "k" { enabled := some false } 100 = .ok c9OutD ∧
    c9OutD.job.state.nextRunAtMs = none ∧
    c9OutD.job.state.runningAtMs = none ∧
    update none (some c9StoreOff) "k" { enabled := some true } 100 = .ok c9OutE ∧
    c9OutE.job.state.nextRunAtMs = some (computeJobNextRunAtMs c9OutE.job 100) ∧
    c9OutE.job.state.nextRunAtMs = some 1005 ∧
    c9OutE.job.schedule = .every 1000 (some 5) := by
  have hd := update_enable_disable_contract none c9Store "k"
    { enabled := some false } 100 c9Job c9OutD rfl (Or.inl rfl) rfl
  have he := update_enable_disable_contract none c9StoreOff "k"
    { enabled := some true } 100 c9JobOff c9OutE rfl (Or.inl rfl) rfl
  exact ⟨rfl, (hd.1 rfl).1, (hd.1 rfl).2, rfl, he.2.1 rfl, rfl, he.2.2 1000 5 rfl rfl⟩

/-- The length test used by `remove` detects exactly whether some job
with the id was present. -/
theorem remove_length_iff (s : Store) (id : String) :
    ((s.jobs.filter (fun j => j.id ≠ id)).length ≠ s.jobs.length) ↔
      ∃ j ∈ s.jobs, j.id = id := by
  constructor
  · intro h
    by_contra hn
    push_neg at hn
    exact h (by rw [List.filter_eq_self.mpr (fun j hj => by simpa using hn j hj)])
  · rintro ⟨j, hj, hid⟩ hlen
    have heq := (List.filter_sublist _).eq_of_length hlen
    have := List.filter_eq_self.mp heq j hj
    simp [hid] at this

/-- C10: `remove(state, id)` never throws for a missing id: with a loaded
store it returns `{ok:true, removed:false}`, leaves the job list
unchanged and still persisted as-is, and emits no `removed` event; a
`removed` event is emitted iff a job was actually deleted; and on the
store-absent branch it returns `{ok:false, removed:false}` without
persisting or emitting. -/
theorem remove_contract (read : Option Store) (s : Store) (id : String) (now : Int) :
    (remove read (some s) id now = removeCore (some s) id) ∧
    (findJob s id = none →
        removeCore (some s) id = (some s, { ok := true, removed := false }, [], true)) ∧
    ((removeCore (some s) id).2.1.removed = true ↔ ∃ j ∈ s.jobs, j.id = id) ∧
    (CronEvent.removed id ∈ (removeCore (some s) id).2.2.1 ↔
        (removeCore (some s) id).2.1.removed = true) ∧
    (removeCore none id = (none, { ok := false, removed := false }, [], false)) := by
  refine ⟨rfl, ?_, ?_, ?_, rfl⟩
  · intro h
    have hall : ∀ j ∈ s.jobs, ¬ (j.id == id) = true := List.find?_eq_none.mp h
    have hne : ∀ j ∈ s.jobs, ¬ j.id = id := fun j hj => by simpa using hall j hj
    have hfilter : s.jobs.filter (fun j => j.id ≠ id) = s.jobs :=
      List.filter_eq_self.mpr (fun j hj => by simpa using hne j hj)
    simp only [removeCore]
    rw [hfilter]
    simp
  · show (decide ((s.jobs.filter (fun j => j.id ≠ id)).length ≠ s.jobs.length)) = true ↔ _
    rw [decide_eq_true_iff]
    exact remove_length_iff s id
  · by_cases h : (s.jobs.filter (fun j => j.id ≠ id)).length ≠ s.jobs.length
    · simp [removeCore, h]
    · simp [removeCore, h]

/-- Sample job for the remove witness. -/
def c10Job : CronJob where
  id := "x"
  name := "victim"
  enabled := true
  createdAtMs := some 0
  updatedAtMs := some 0
  schedule := .every 1000 (some 0)
  payload := .other "beat"
  state := { nextRunAtMs := some 10 }

/-- Store for the remove witness. -/
def c10Store : Store := { version := 1, jobs := [c10Job] }

/-- Witness for C10: removing a missing id on a loaded store is a
persisted no-op with no event; removing a present id reports removed and
emits the event; the store-absent branch returns `{ok:false,
removed:false}`. -/
theorem remove_contract_witness :
    remove none (some c10Store) "zz" 5 = removeCore (some c10Store) "zz" ∧
    removeCore (some c10Store) "zz" =
      (some c10Store, { ok := true, removed := false }, [], true) ∧
    ((removeCore (some c10Store) "x").2.1.removed = true ↔
      ∃ j ∈ c10Store.jobs, j.id = "x") ∧
    CronEvent.removed "x" ∈ (removeCore (some c10Store) "x").2.2.1 ∧
    removeCore none "x" = (none, { ok := false, removed := false }, [], false) := by
  have h1 := remove_contract none c10Store "zz" 5
  have h2 := remove_contract none c10Store "x" 5
  exact ⟨h1.1, h1.2.1 rfl, h2.2.2.1,
    h2.2.2.2.1.mpr (h2.2.2.1.mpr ⟨c10Job, by simp [c10Store], rfl⟩), h2.2.2.2.2⟩

end Cron
